import Mathlib

/-!
Verification of the Password_Manager cryptographic core.

Shallow embedding of the repository's TypeScript sources:

* `src/unnamed/part_003`            — AES-256 block cipher (`keyExpansion`, `encryptBlock`)
* `src/packages/shared/src/crypto/ghash.ts` — GF(2^128), GHASH, padding, length block
* `src/packages/shared/src/crypto/gcm.ts`   — AES-256-GCM `encrypt` / `decrypt`
* `src/packages/shared/src/srp.ts`          — SRP-6a client/server
* `src/unnamed/part_012`            — the vault engine (`Vault`, `Password`)

Bytes are modelled as `Nat` (each value kept below 256 by the operations,
as a `Uint8Array` does), byte arrays as `List Nat`.  JavaScript `throw` is
modelled by `Option`/`Except` results.  While-loops are modelled by
structurally recursive functions whose first argument is an explicit
iteration bound taken large enough to cover the loop (the source loops
terminate for the same reason the bound suffices).
-/

namespace PM

/-- Array access `l[i]` on a `Uint8Array`/array of bytes (out-of-range reads do not occur
at the call sites below; `0` is a dummy). -/
def idx (l : List Nat) (i : Nat) : Nat := l.getD i 0

/-! ## AES-256 block cipher (src/unnamed/part_003)

Only the encryption direction is embedded: GCM (counter mode) never calls
`decryptBlock`, and no claim mentions it. -/

/-- FIPS-197 S-box (the `S_BOX` table). -/
def sBox : List Nat := [
  0x63, 0x7c, 0x77, 0x7b, 0xf2, 0x6b, 0x6f, 0xc5, 0x30, 0x01, 0x67, 0x2b, 0xfe, 0xd7, 0xab, 0x76,
  0xca, 0x82, 0xc9, 0x7d, 0xfa, 0x59, 0x47, 0xf0, 0xad, 0xd4, 0xa2, 0xaf, 0x9c, 0xa4, 0x72, 0xc0,
  0xb7, 0xfd, 0x93, 0x26, 0x36, 0x3f, 0xf7, 0xcc, 0x34, 0xa5, 0xe5, 0xf1, 0x71, 0xd8, 0x31, 0x15,
  0x04, 0xc7, 0x23, 0xc3, 0x18, 0x96, 0x05, 0x9a, 0x07, 0x12, 0x80, 0xe2, 0xeb, 0x27, 0xb2, 0x75,
  0x09, 0x83, 0x2c, 0x1a, 0x1b, 0x6e, 0x5a, 0xa0, 0x52, 0x3b, 0xd6, 0xb3, 0x29, 0xe3, 0x2f, 0x84,
  0x53, 0xd1, 0x00, 0xed, 0x20, 0xfc, 0xb1, 0x5b, 0x6a, 0xcb, 0xbe, 0x39, 0x4a, 0x4c, 0x58, 0xcf,
  0xd0, 0xef, 0xaa, 0xfb, 0x43, 0x4d, 0x33, 0x85, 0x45, 0xf9, 0x02, 0x7f, 0x50, 0x3c, 0x9f, 0xa8,
  0x51, 0xa3, 0x40, 0x8f, 0x92, 0x9d, 0x38, 0xf5, 0xbc, 0xb6, 0xda, 0x21, 0x10, 0xff, 0xf3, 0xd2,
  0xcd, 0x0c, 0x13, 0xec, 0x5f, 0x97, 0x44, 0x17, 0xc4, 0xa7, 0x7e, 0x3d, 0x64, 0x5d, 0x19, 0x73,
  0x60, 0x81, 0x4f, 0xdc, 0x22, 0x2a, 0x90, 0x88, 0x46, 0xee, 0xb8, 0x14, 0xde, 0x5e, 0x0b, 0xdb,
  0xe0, 0x32, 0x3a, 0x0a, 0x49, 0x06, 0x24, 0x5c, 0xc2, 0xd3, 0xac, 0x62, 0x91, 0x95, 0xe4, 0x79,
  0xe7, 0xc8, 0x37, 0x6d, 0x8d, 0xd5, 0x4e, 0xa9, 0x6c, 0x56, 0xf4, 0xea, 0x65, 0x7a, 0xae, 0x08,
  0xba, 0x78, 0x25, 0x2e, 0x1c, 0xa6, 0xb4, 0xc6, 0xe8, 0xdd, 0x74, 0x1f, 0x4b, 0xbd, 0x8b, 0x8a,
  0x70, 0x3e, 0xb5, 0x66, 0x48, 0x03, 0xf6, 0x0e, 0x61, 0x35, 0x57, 0xb9, 0x86, 0xc1, 0x1d, 0x9e,
  0xe1, 0xf8, 0x98, 0x11, 0x69, 0xd9, 0x8e, 0x94, 0x9b, 0x1e, 0x87, 0xe9, 0xce, 0x55, 0x28, 0xdf,
  0x8c, 0xa1, 0x89, 0x0d, 0xbf, 0xe6, 0x42, 0x68, 0x41, 0x99, 0x2d, 0x0f, 0xb0, 0x54, 0xbb, 0x16]

/-- The `RCON` round constants. -/
def RCON : List Nat := [0x01, 0x02, 0x04, 0x08, 0x10, 0x20, 0x40, 0x80, 0x1b, 0x36]

/-- Lookup `S_BOX[b]`. -/
def sboxAt (b : Nat) : Nat := sBox.getD b 0

/-- The source function `gmul`: multiplication in GF(2^8); the source's 8-iteration loop,
structurally on the (fixed) iteration count. -/
def gmulGo : Nat → Nat → Nat → Nat → Nat
  | 0, _, _, acc => acc
  | n + 1, a, b, acc =>
      let acc2 := if b % 2 = 1 then acc ^^^ a else acc
      let highBit := a &&& 0x80
      let a2 := (a <<< 1) &&& 0xff
      let a3 := if highBit ≠ 0 then a2 ^^^ 0x1b else a2
      gmulGo n a3 (b >>> 1) acc2

/-- The source function `gmul(a, b)` from the source (loop of 8 iterations). -/
def gmul (a b : Nat) : Nat := gmulGo 8 a b 0

/-- The source function `rotWord`. -/
def rotWord (w : List Nat) : List Nat := [idx w 1, idx w 2, idx w 3, idx w 0]

/-- The source function `subWord`. -/
def subWord (w : List Nat) : List Nat := w.map sboxAt

/-- The source function `addRoundKey`: `state[i] ^= roundKey[i]` for `i < 16` (the state at every
call site has 16 bytes). -/
def addRoundKey (s rk : List Nat) : List Nat :=
  (List.range 16).map (fun i => idx s i ^^^ idx rk i)

/-- The source function `subBytes`: the S-box applied to each of the 16 state bytes. -/
def subBytes (s : List Nat) : List Nat :=
  (List.range 16).map (fun i => sboxAt (idx s i))

/-- The source function `shiftRows`: the column-major row rotation, written out positionally as in
the source. -/
def shiftRows (s : List Nat) : List Nat :=
  [idx s 0, idx s 5, idx s 10, idx s 15,
   idx s 4, idx s 9, idx s 14, idx s 3,
   idx s 8, idx s 13, idx s 2, idx s 7,
   idx s 12, idx s 1, idx s 6, idx s 11]

/-- One column of `mixColumns`. -/
def mixColumn (s0 s1 s2 s3 : Nat) : List Nat :=
  [gmul 2 s0 ^^^ gmul 3 s1 ^^^ s2 ^^^ s3,
   s0 ^^^ gmul 2 s1 ^^^ gmul 3 s2 ^^^ s3,
   s0 ^^^ s1 ^^^ gmul 2 s2 ^^^ gmul 3 s3,
   gmul 3 s0 ^^^ s1 ^^^ s2 ^^^ gmul 2 s3]

/-- The source function `mixColumns` over the four 4-byte columns. -/
def mixColumns (s : List Nat) : List Nat :=
  mixColumn (idx s 0) (idx s 1) (idx s 2) (idx s 3) ++
  mixColumn (idx s 4) (idx s 5) (idx s 6) (idx s 7) ++
  mixColumn (idx s 8) (idx s 9) (idx s 10) (idx s 11) ++
  mixColumn (idx s 12) (idx s 13) (idx s 14) (idx s 15)

/-- The word array `w` of `keyExpansion` (60 words; the first 8 are the key,
the remaining 52 produced by the source's `for` loop; `NK = 8`, so the
source's `NK > 6 && i % NK === 4` test is `i % 8 = 4`). -/
def keyExpansionWords (key : List Nat) : List (List Nat) :=
  (List.range' 8 52).foldl
    (fun w i =>
      let temp := w.getD (i - 1) []
      let temp :=
        if i % 8 = 0 then
          let t := subWord (rotWord temp)
          t.set 0 (idx t 0 ^^^ RCON.getD (i / 8 - 1) 0)
        else if i % 8 = 4 then subWord temp
        else temp
      w ++ [[idx (w.getD (i - 8) []) 0 ^^^ idx temp 0,
             idx (w.getD (i - 8) []) 1 ^^^ idx temp 1,
             idx (w.getD (i - 8) []) 2 ^^^ idx temp 2,
             idx (w.getD (i - 8) []) 3 ^^^ idx temp 3]])
    ((List.range 8).map (fun i =>
      [idx key (4 * i), idx key (4 * i + 1), idx key (4 * i + 2), idx key (4 * i + 3)]))

/-- The source function `keyExpansion`: rejects keys that are not 32 bytes (the source throws),
otherwise produces the 15 round keys, each the 16 bytes of 4 consecutive
words. -/
def keyExpansion (key : List Nat) : Option (List (List Nat)) :=
  if key.length ≠ 32 then none
  else
    let w := keyExpansionWords key
    some ((List.range 15).map (fun round =>
      w.getD (4 * round) [] ++ w.getD (4 * round + 1) [] ++
      w.getD (4 * round + 2) [] ++ w.getD (4 * round + 3) []))

/-- The source function `encryptBlock`: initial AddRoundKey, 13 main rounds, final round without
MixColumns.  (The source throws on non-16-byte blocks; every call inside GCM
passes a 16-byte block, so the guard is unreachable there and is omitted.) -/
def encryptBlock (block : List Nat) (roundKeys : List (List Nat)) : List Nat :=
  let state := addRoundKey block (roundKeys.getD 0 [])
  let state := (List.range' 1 13).foldl
    (fun s round => addRoundKey (mixColumns (shiftRows (subBytes s))) (roundKeys.getD round []))
    state
  addRoundKey (shiftRows (subBytes state)) (roundKeys.getD 14 [])

/-! ## GHASH (src/packages/shared/src/crypto/ghash.ts) -/

/-- The 128-bit value of `class GF128`: two 64-bit halves (the constructor
masks both with `0xffffffffffffffff`, i.e. `% 2^64`). -/
structure GF128 where
  high : Nat
  low : Nat
deriving DecidableEq, Repr

/-- The masking constructor `new GF128(high, low)`. -/
def GF128.mask (h l : Nat) : GF128 := ⟨h % 2 ^ 64, l % 2 ^ 64⟩

/-- Byte `(n >> sh) & 0xff`. -/
def byteAt (n sh : Nat) : Nat := (n >>> sh) % 256

/-- The source function `GF128.fromBytes` (big-endian; call sites always pass 16 bytes, where the
source would throw otherwise). -/
def GF128.fromBytes (bytes : List Nat) : GF128 :=
  GF128.mask
    ((List.range 8).foldl (fun h i => (h <<< 8) ||| idx bytes i) 0)
    ((List.range 8).foldl (fun l i => (l <<< 8) ||| idx bytes (8 + i)) 0)

/-- The source function `GF128.toBytes` (big-endian, 16 bytes). -/
def GF128.toBytes (x : GF128) : List Nat :=
  [byteAt x.high 56, byteAt x.high 48, byteAt x.high 40, byteAt x.high 32,
   byteAt x.high 24, byteAt x.high 16, byteAt x.high 8, byteAt x.high 0,
   byteAt x.low 56, byteAt x.low 48, byteAt x.low 40, byteAt x.low 32,
   byteAt x.low 24, byteAt x.low 16, byteAt x.low 8, byteAt x.low 0]

/-- The source function `GF128.xor`. -/
def GF128.xorG (a b : GF128) : GF128 := GF128.mask (a.high ^^^ b.high) (a.low ^^^ b.low)

/-- The source function `GF128.getBit` (0 = MSB of `high`, 127 = LSB of `low`). -/
def GF128.getBit (x : GF128) (pos : Nat) : Bool :=
  if pos < 64 then (x.high >>> (63 - pos)) &&& 1 = 1
  else (x.low >>> (127 - pos)) &&& 1 = 1

/-- The source function `GF128.shiftRight` by one bit. -/
def GF128.shiftRight (x : GF128) : GF128 :=
  GF128.mask (x.high >>> 1) ((x.low >>> 1) ||| ((x.high &&& 1) <<< 63))

/-- The reduction constant `R = 0xe1 << 120`. -/
def Rconst : GF128 := ⟨0xe100000000000000, 0⟩

/-- The source function `gf128Multiply`: the 128-iteration shift-and-xor loop, as a fold over the
bit positions with state `(Z, V)`. -/
def gf128Multiply (X Y : GF128) : GF128 :=
  ((List.range 128).foldl
    (fun p i =>
      let Z := if X.getBit i then p.1.xorG p.2 else p.1
      let lsb := p.2.low % 2 = 1
      let V := p.2.shiftRight
      let V := if lsb then V.xorG Rconst else V
      (Z, V))
    (⟨0, 0⟩, GF128.mask Y.high Y.low)).1

/-- The block loop of `ghash` (`Y_i = (Y_{i-1} ⊕ X_i) • H`), with an explicit
iteration bound (`data.length` blocks suffice). -/
def ghashGo (hk : GF128) : Nat → List Nat → GF128 → GF128
  | 0, _, Y => Y
  | fuel + 1, data, Y =>
      if data = [] then Y
      else ghashGo hk fuel (data.drop 16)
        (gf128Multiply (Y.xorG (GF128.fromBytes (data.take 16))) hk)

/-- The source function `ghash(H, data)`: rejects a non-16-byte `H` or data that is not a multiple
of 16 bytes (the source throws), otherwise folds `gf128Multiply` over the
16-byte blocks. -/
def ghash (H data : List Nat) : Option (List Nat) :=
  if H.length ≠ 16 then none
  else if data.length % 16 ≠ 0 then none
  else some (GF128.toBytes (ghashGo (GF128.fromBytes H) data.length data ⟨0, 0⟩))

/-- The source function `padTo16`: zero-pad to a multiple of 16 bytes. -/
def padTo16 (data : List Nat) : List Nat :=
  if data.length % 16 = 0 then data
  else data ++ List.replicate (16 - data.length % 16) 0

/-- The 8-byte big-endian encoding of the low 64 bits of `n` (the source
writes `n & 0xff` eight times, shifting right by 8 in between). -/
def be64 (n : Nat) : List Nat :=
  [byteAt n 56, byteAt n 48, byteAt n 40, byteAt n 32,
   byteAt n 24, byteAt n 16, byteAt n 8, byteAt n 0]

/-- The source function `createLengthBlock`: bit lengths of AAD and ciphertext, each 64-bit
big-endian. -/
def createLengthBlock (aadLength ciphertextLength : Nat) : List Nat :=
  be64 (8 * aadLength) ++ be64 (8 * ciphertextLength)

/-! ## AES-256-GCM (src/packages/shared/src/crypto/gcm.ts) -/

/-- The source function `incrementCounter`: increment the last 4 bytes as a big-endian 32-bit
integer (each byte wraps `% 256` in a `Uint8Array`, the loop stops at the
first byte that did not wrap to zero). -/
def incrementCounter (c : List Nat) : List Nat :=
  let v15 := (idx c 15 + 1) % 256
  let c15 := c.set 15 v15
  if v15 ≠ 0 then c15 else
    let v14 := (idx c15 14 + 1) % 256
    let c14 := c15.set 14 v14
    if v14 ≠ 0 then c14 else
      let v13 := (idx c14 13 + 1) % 256
      let c13 := c14.set 13 v13
      if v13 ≠ 0 then c13 else
        c13.set 12 ((idx c13 12 + 1) % 256)

/-- The source function `generateJ0`: a 96-bit IV gives `IV ‖ 0^31 ‖ 1`; any other length goes
through GHASH. -/
def generateJ0 (iv H : List Nat) : Option (List Nat) :=
  if iv.length = 12 then some (iv ++ [0, 0, 0, 1])
  else ghash H (padTo16 iv ++ createLengthBlock 0 iv.length)

/-- The `gctr` block loop: XOR each (up to) 16-byte chunk of the data with a
fresh keystream block, incrementing the counter after each full block; a
partial final chunk XORs only its own bytes.  The iteration bound
`data.length` covers the `data.length / 16` rounds of the source loop. -/
def gctrGo (roundKeys : List (List Nat)) : Nat → List Nat → List Nat → List Nat
  | 0, _, _ => []
  | fuel + 1, icb, data =>
      if data = [] then []
      else
        List.zipWith (· ^^^ ·) (data.take 16) (encryptBlock icb roundKeys) ++
          gctrGo roundKeys fuel (incrementCounter icb) (data.drop 16)

/-- The source function `gctr(roundKeys, icb, data)`. -/
def gctr (roundKeys : List (List Nat)) (icb data : List Nat) : List Nat :=
  gctrGo roundKeys data.length icb data

/-- The interface `GCMEncryptResult`. -/
structure GCMEncryptResult where
  ciphertext : List Nat
  tag : List Nat
deriving DecidableEq, Repr

/-- The 16-byte zero block. -/
def zeroBlock : List Nat := List.replicate 16 0

/-- GCM `encrypt(key, iv, plaintext, aad)`; `none` models the `throw` of
`keyExpansion` on a key that is not 32 bytes (the only reachable failure —
both GHASH applications are over 16-byte `H` and 16-aligned data). -/
def encrypt (key iv plaintext aad : List Nat) : Option GCMEncryptResult :=
  match keyExpansion key with
  | none => none
  | some roundKeys =>
    let H := encryptBlock zeroBlock roundKeys
    match generateJ0 iv H with
    | none => none
    | some J0 =>
      let ICB := incrementCounter J0
      let ciphertext := gctr roundKeys ICB plaintext
      match ghash H (padTo16 aad ++ padTo16 ciphertext ++
          createLengthBlock aad.length ciphertext.length) with
      | none => none
      | some S => some ⟨ciphertext, gctr roundKeys J0 S⟩

/-- The constant-time tag comparison of `decrypt`: all 16 positions equal. -/
def tagCheck (computedTag tag : List Nat) : Bool :=
  (List.range 16).all (fun i => idx computedTag i == idx tag i)

/-- GCM `decrypt(key, iv, ciphertext, tag, aad)`; `none` models every
`throw`: wrong tag size, wrong key size, and `Authentication failed`. -/
def decrypt (key iv ciphertext tag aad : List Nat) : Option (List Nat) :=
  if tag.length ≠ 16 then none
  else
    match keyExpansion key with
    | none => none
    | some roundKeys =>
      let H := encryptBlock zeroBlock roundKeys
      match generateJ0 iv H with
      | none => none
      | some J0 =>
        match ghash H (padTo16 aad ++ padTo16 ciphertext ++
            createLengthBlock aad.length ciphertext.length) with
        | none => none
        | some S =>
          let computedTag := gctr roundKeys J0 S
          if tagCheck computedTag tag then
            some (gctr roundKeys (incrementCounter J0) ciphertext)
          else none

/-! ### Facts about the GCM embedding -/

theorem encryptBlock_length (b : List Nat) (rks : List (List Nat)) :
    (encryptBlock b rks).length = 16 := by
  simp [encryptBlock, addRoundKey]

theorem padTo16_length_mod (d : List Nat) : (padTo16 d).length % 16 = 0 := by
  unfold padTo16
  split
  · assumption
  · rename_i h
    have h16 : d.length % 16 < 16 := Nat.mod_lt _ (by decide)
    simp only [List.length_append, List.length_replicate]
    omega

theorem createLengthBlock_length (a c : Nat) : (createLengthBlock a c).length = 16 := by
  simp [createLengthBlock, be64]

theorem ghash_isSome (H data : List Nat) (hH : H.length = 16)
    (hd : data.length % 16 = 0) : ∃ S, ghash H data = some S ∧ S.length = 16 := by
  refine ⟨GF128.toBytes (ghashGo (GF128.fromBytes H) data.length data ⟨0, 0⟩), ?_, ?_⟩
  · simp [ghash, hH, hd]
  · simp [GF128.toBytes]

theorem generateJ0_isSome (iv H : List Nat) (hH : H.length = 16) :
    ∃ J0, generateJ0 iv H = some J0 := by
  unfold generateJ0
  split
  · exact ⟨_, rfl⟩
  · obtain ⟨S, hS, -⟩ := ghash_isSome H (padTo16 iv ++ createLengthBlock 0 iv.length) hH
      (by have := padTo16_length_mod iv
          simp only [List.length_append, createLengthBlock_length]
          omega)
    exact ⟨S, hS⟩

theorem tagCheck_self (t : List Nat) : tagCheck t t = true := by
  simp [tagCheck]

/-- XOR-ing twice with the same keystream gives back the data. -/
theorem zipWith_xor_cancel :
    ∀ (xs ks : List Nat), xs.length ≤ ks.length →
      List.zipWith (· ^^^ ·) (List.zipWith (· ^^^ ·) xs ks) ks = xs := by
  intro xs
  induction xs with
  | nil => intro ks _; simp
  | cons x xs ih =>
    intro ks hlen
    cases ks with
    | nil => simp at hlen
    | cons k ks =>
      simp only [List.zipWith_cons_cons, List.cons.injEq]
      exact ⟨Nat.xor_cancel_right _ _, ih ks (by simpa using hlen)⟩

theorem gctrGo_length (rks : List (List Nat)) :
    ∀ fuel icb data, data.length ≤ fuel → (gctrGo rks fuel icb data).length = data.length := by
  intro fuel
  induction fuel with
  | zero =>
    intro icb data h
    have : data = [] := List.eq_nil_of_length_eq_zero (Nat.le_zero.mp h)
    simp [this, gctrGo]
  | succ n ih =>
    intro icb data h
    by_cases hd : data = []
    · simp [hd, gctrGo]
    · have hpos : 0 < data.length := List.length_pos.mpr hd
      have hdrop : (data.drop 16).length ≤ n := by
        simp only [List.length_drop]; omega
      simp only [gctrGo, if_neg hd, List.length_append, ih _ _ hdrop,
        List.length_zipWith, List.length_take, encryptBlock_length, List.length_drop]
      omega

theorem gctr_length (rks : List (List Nat)) (icb data : List Nat) :
    (gctr rks icb data).length = data.length :=
  gctrGo_length rks data.length icb data le_rfl

/-- The GCTR keystream is determined by the counter alone, so applying it
twice is the identity. -/
theorem gctrGo_involutive (rks : List (List Nat)) :
    ∀ fuel icb data, data.length ≤ fuel →
      gctrGo rks fuel icb (gctrGo rks fuel icb data) = data := by
  intro fuel
  induction fuel with
  | zero =>
    intro icb data h
    have : data = [] := List.eq_nil_of_length_eq_zero (Nat.le_zero.mp h)
    simp [this, gctrGo]
  | succ n ih =>
    intro icb data h
    by_cases hd : data = []
    · simp [hd, gctrGo]
    · have hks : (encryptBlock icb rks).length = 16 := encryptBlock_length ..
      have htake : (data.take 16).length ≤ 16 := by
        simp [List.length_take]
      set A := List.zipWith (· ^^^ ·) (data.take 16) (encryptBlock icb rks) with hA
      have hAlen : A.length = min data.length 16 := by
        simp only [hA, List.length_zipWith, hks, List.length_take]
        omega
      set B := gctrGo rks n (incrementCounter icb) (data.drop 16) with hB
      have hBlen : B.length = (data.drop 16).length := by
        have : (data.drop 16).length ≤ n := by
          have hpos : 0 < data.length := List.length_pos.mpr hd
          simp only [List.length_drop]; omega
        exact gctrGo_length rks n _ _ this
      have houter : gctrGo rks (n + 1) icb data = A ++ B := by
        simp only [gctrGo, if_neg hd]
      rw [houter]
      have hABne : A ++ B ≠ [] := by
        have hpos : 0 < data.length := List.length_pos.mpr hd
        intro hcontra
        have : (A ++ B).length = 0 := by rw [hcontra]; rfl
        rw [List.length_append, hAlen, hBlen] at this
        simp only [List.length_drop] at this
        omega
      simp only [gctrGo, if_neg hABne]
      by_cases hbig : 16 ≤ data.length
      · have hA16 : A.length = 16 := by rw [hAlen]; omega
        have htakeA : (A ++ B).take 16 = A := by
          rw [← hA16, List.take_left]
        have hdropA : (A ++ B).drop 16 = B := by
          rw [← hA16, List.drop_left]
        rw [htakeA, hdropA, hA]
        rw [zipWith_xor_cancel _ _ (by rw [hks]; simp)]
        have hdn : (data.drop 16).length ≤ n := by
          simp only [List.length_drop]; omega
        rw [hB, ih _ _ hdn, List.take_append_drop]
      · have hlt : data.length < 16 := by omega
        have hdropnil : data.drop 16 = [] := by
          apply List.eq_nil_of_length_eq_zero
          simp only [List.length_drop]; omega
        have hBnil : B = [] := by rw [hB, hdropnil]; cases n <;> simp [gctrGo]
        have htakeall : data.take 16 = data := List.take_of_length_le (by omega)
        have hAeq : A = List.zipWith (· ^^^ ·) data (encryptBlock icb rks) := by
          rw [hA, htakeall]
        have hAlen' : A.length = data.length := by rw [hAlen]; omega
        rw [hBnil, List.append_nil]
        have htakeA : A.take 16 = A := List.take_of_length_le (by omega)
        have hdropA : A.drop 16 = [] := by
          apply List.eq_nil_of_length_eq_zero
          simp only [List.length_drop]; omega
        rw [htakeA, hdropA, hAeq]
        rw [zipWith_xor_cancel _ _ (by rw [hks]; omega)]
        have : gctrGo rks n (incrementCounter icb) [] = [] := by cases n <;> simp [gctrGo]
        rw [this, List.append_nil]

theorem gctr_involutive (rks : List (List Nat)) (icb data : List Nat) :
    gctr rks icb (gctr rks icb data) = data := by
  have h := gctrGo_length rks data.length icb data le_rfl
  unfold gctr
  rw [h]
  exact gctrGo_involutive rks data.length icb data le_rfl

/-- With a 32-byte key, `encrypt` never fails: `keyExpansion` accepts the
key and both GHASH applications satisfy the GHASH guards by construction. -/
theorem encrypt_isSome (key iv pt aad : List Nat) (hkey : key.length = 32) :
    ∃ r, encrypt key iv pt aad = some r := by
  obtain ⟨rks, hrks⟩ : ∃ rks, keyExpansion key = some rks := by
    unfold keyExpansion
    rw [if_neg (by omega)]
    exact ⟨_, rfl⟩
  have hH : (encryptBlock zeroBlock rks).length = 16 := encryptBlock_length _ _
  obtain ⟨J0, hJ0⟩ := generateJ0_isSome iv _ hH
  obtain ⟨S, hS, -⟩ := ghash_isSome (encryptBlock zeroBlock rks)
    (padTo16 aad ++ padTo16 (gctr rks (incrementCounter J0) pt) ++
      createLengthBlock aad.length (gctr rks (incrementCounter J0) pt).length)
    hH
    (by
      have h1 := padTo16_length_mod aad
      have h2 := padTo16_length_mod (gctr rks (incrementCounter J0) pt)
      simp only [List.length_append, createLengthBlock_length]
      omega)
  exact ⟨⟨gctr rks (incrementCounter J0) pt, gctr rks J0 S⟩,
    by simp only [encrypt, hrks, hJ0, hS]⟩

/-- Claim C1 — AEAD round-trip: for every 32-byte key, every IV, every
plaintext and every AAD, `decrypt` applied to the ciphertext and tag
produced by `encrypt` (same key, IV, AAD) succeeds and returns the
plaintext. -/
theorem gcm_encrypt_decrypt_roundtrip (key iv plaintext aad : List Nat)
    (hkey : key.length = 32) :
    ∃ ct tag, encrypt key iv plaintext aad = some ⟨ct, tag⟩ ∧
      decrypt key iv ct tag aad = some plaintext := by
  obtain ⟨rks, hrks⟩ : ∃ rks, keyExpansion key = some rks := by
    unfold keyExpansion
    rw [if_neg (by omega)]
    exact ⟨_, rfl⟩
  have hH : (encryptBlock zeroBlock rks).length = 16 := encryptBlock_length _ _
  obtain ⟨J0, hJ0⟩ := generateJ0_isSome iv _ hH
  obtain ⟨S, hS, hSlen⟩ := ghash_isSome (encryptBlock zeroBlock rks)
    (padTo16 aad ++ padTo16 (gctr rks (incrementCounter J0) plaintext) ++
      createLengthBlock aad.length (gctr rks (incrementCounter J0) plaintext).length)
    hH
    (by
      have h1 := padTo16_length_mod aad
      have h2 := padTo16_length_mod (gctr rks (incrementCounter J0) plaintext)
      simp only [List.length_append, createLengthBlock_length]
      omega)
  have htag : (gctr rks J0 S).length = 16 := by rw [gctr_length, hSlen]
  refine ⟨gctr rks (incrementCounter J0) plaintext, gctr rks J0 S, ?_, ?_⟩
  · simp only [encrypt, hrks, hJ0, hS]
  · simp only [decrypt, hrks, hJ0, hS, htag]
    rw [if_neg (by omega), tagCheck_self]
    simp only [if_true, gctr_involutive]

/-- Witness for C1 at a concrete input: a 32-byte zero key, 12-byte zero IV,
3-byte plaintext and 1-byte AAD. -/
theorem gcm_encrypt_decrypt_roundtrip_witness :
    (List.replicate 32 0 : List Nat).length = 32 ∧
      ∃ ct tag,
        encrypt (List.replicate 32 0) (List.replicate 12 0) [1, 2, 3] [4] = some ⟨ct, tag⟩ ∧
        decrypt (List.replicate 32 0) (List.replicate 12 0) ct tag [4] = some [1, 2, 3] :=
  ⟨by simp, gcm_encrypt_decrypt_roundtrip (List.replicate 32 0) (List.replicate 12 0)
    [1, 2, 3] [4] (by simp)⟩

/-! ## The vault engine (src/unnamed/part_012)

The engine stores binary values base64-encoded inside JSON documents;
base64 encoding is a bijection used purely for framing, so the model keeps
the byte lists themselves (an empty string corresponds exactly to the empty
byte list, which is what the engine's falsiness checks test).  ISO-8601
timestamps are compared through `Date.getTime()`, a monotone injection on
valid timestamps, so the model carries timestamps as `Nat`.  Randomness
(`webcrypto.getRandomValues`, `randomBytes`) is passed in as explicit
arguments. -/

/-- Hex digit value, as `BigInt("0x…")`/`Buffer.from(_, 'hex')` accept it
(lower- and upper-case). -/
def hexDigitVal (c : Char) : Nat :=
  if c.toNat ≥ 97 then c.toNat - 87
  else if c.toNat ≥ 65 then c.toNat - 55
  else c.toNat - 48

/-- The builtin `Buffer.from(s, 'hex')`: consecutive hex-digit pairs to bytes (a trailing
lone digit is dropped, as node does). -/
def hexPairsGo : List Char → List Nat
  | a :: b :: rest => (16 * hexDigitVal a + hexDigitVal b) :: hexPairsGo rest
  | _ => []

/-- The builtin `Buffer.from(s, 'hex')` as a byte list. -/
def hexToBytes (s : String) : List Nat := hexPairsGo s.data

/-- One decrypted credential entry (the object literal returned by
`Password.getAccountInfo`; `username`/`password` are the UTF-8 bytes of the
decrypted strings — `TextDecoder`/`TextEncoder` form a bijection realised
here as the identity on byte lists, and the numeric id is kept as `Nat`
where the source round-trips it through `toString`/`Number`). -/
structure DecryptedEntry where
  id : Nat
  site : String
  username : List Nat
  password : List Nat
  note : String
  category : String
  favorite : Bool
  createdAt : Nat
  updatedAt : Nat
deriving DecidableEq, Repr

/-- The source class `Password` (field order follows the source's constructor). -/
structure Password where
  passwordId : Nat
  username : List Nat
  usernameIV : List Nat
  usernameTag : List Nat
  password : List Nat
  passwordIV : List Nat
  passwordTag : List Nat
  site : String
  note : String
  category : String
  isFavorite : Bool
  created : Nat
  updated : Nat
deriving DecidableEq, Repr

/-- The transport envelope `vaultEncData` of `uploadVault`. -/
structure SyncEnvelope where
  vault_iv : List Nat
  vault_ciphertext : List Nat
  vault_tag : List Nat
deriving DecidableEq, Repr

/-- The document posted to / fetched from `/vault` (`uploadVault`'s
`vaultData`, read back by `importVaultData`). -/
structure RemoteDoc where
  user : String
  version : Nat
  salt : String
  createdAt : Nat
  updatedAt : Nat
  verificationIV : List Nat
  verificationCiphertext : List Nat
  verificationTag : List Nat
  vault : SyncEnvelope
deriving DecidableEq, Repr

/-- The on-disk vault document (`userData` of `saveToFile`).  A field is
`none` when the stored JSON object lacks it, mirroring the `'field' in
content` tests of `createFromFile`. -/
structure VaultDoc where
  user : String
  version : Option Nat
  salt : Option String
  createdAt : Option Nat
  updatedAt : Option Nat
  verificationToken : Option (List Nat)
  verificationIV : Option (List Nat)
  verificationTag : Option (List Nat)
  passwords : Option (List Password)
deriving DecidableEq, Repr

/-- The fields of `class Vault`. -/
structure VaultState where
  user : String
  createdAt : Nat
  updatedAt : Nat
  version : Nat
  vaultPasswords : List Password
  salt : String
  secretKey : String
  token : Option String
  remoteUpdatedAt : Option Nat
  verificationToken : List Nat
  verificationIV : List Nat
  verificationTag : List Nat
  verificationPlaintext : List Nat
  derivedKey : List Nat
deriving DecidableEq, Repr

/-- Modelled from the spec: the engine's external collaborators whose code is
not under `src/` — the WASM crypto module (`pbkdf2_hmac_sha256`, `sha256`,
both returning lowercase hex strings per §4.4–4.5) and the JavaScript
builtins `JSON.stringify` / `JSON.parse` / `TextEncoder` (§4.8: canonical
serialization is the library's pinned JSON output).  The engine only feeds
their outputs to encryption and equality tests, so the development is
parametric in them; each field is the byte-level composite the engine
computes:

* `pbkdf2 password salt iterations dkLen` — `pbkdf2_hmac_sha256`, hex output;
* `sha256hex` — the WASM `sha256` on a string, hex output (used by SRP);
* `entriesDigest` — UTF-8 bytes of `sha256(JSON.stringify(vaultPasswords))`;
* `serializeEntries` — UTF-8 bytes of `JSON.stringify(passwords.map(getAsObject))`;
* `parseEntries` — `JSON.parse` of decrypted bytes back into `Password`s
  (`none` models a parse `throw`);
* `envDigest` — UTF-8 bytes of `sha256(JSON.stringify(vaultEncData))`. -/
structure Externals where
  pbkdf2 : String → String → Nat → Nat → String
  sha256hex : String → String
  entriesDigest : List Password → List Nat
  serializeEntries : List Password → List Nat
  parseEntries : List Nat → Option (List Password)
  envDigest : SyncEnvelope → List Nat

/-- The source function `generateRandomIV`: 16 random bytes (`new Uint8Array(16)` filled by
`getRandomValues`); `rand` supplies the randomness. -/
def generateRandomIV (rand : Nat → Nat) : List Nat :=
  (List.range 16).map (fun i => rand i % 256)

/-- The source function `deriveKey(salt, masterPassword, secretKey)`: PBKDF2-HMAC-SHA256 over the
concatenation master-password-then-secret-key, 600000 iterations, 32-byte
key, hex output decoded to bytes. -/
def deriveKey (E : Externals) (salt masterPassword secretKey : String) : List Nat :=
  hexToBytes (E.pbkdf2 (masterPassword ++ secretKey) salt 600000 32)

namespace Vault

/-- The source function `verifyPassword`: vacuously true when any verification field is absent
(empty), otherwise AEAD-decrypt the token and compare with the digest of the
current entries; any decryption `throw` means `false`. -/
def verifyPassword (E : Externals) (st : VaultState) : Bool :=
  if st.verificationToken = [] ∨ st.verificationIV = [] ∨ st.verificationTag = [] then true
  else
    match decrypt st.derivedKey st.verificationIV st.verificationToken st.verificationTag [] with
    | none => false
    | some d => d == E.entriesDigest st.vaultPasswords

/-- The source function `setVerificationToken`: seal `verificationPlaintext` under the derived
key with a fresh IV (`none` models the `throw` of a wrong-size key). -/
def setVerificationToken (st : VaultState) (ivRand : Nat → Nat) : Option VaultState :=
  let iv := generateRandomIV ivRand
  match encrypt st.derivedKey iv st.verificationPlaintext [] with
  | none => none
  | some r =>
    some { st with verificationToken := r.ciphertext, verificationIV := iv,
                   verificationTag := r.tag }

/-- The document `saveToFile` writes. -/
def docOf (st : VaultState) : VaultDoc :=
  { user := st.user, version := some st.version, salt := some st.salt,
    createdAt := some st.createdAt, updatedAt := some st.updatedAt,
    verificationToken := some st.verificationToken,
    verificationIV := some st.verificationIV,
    verificationTag := some st.verificationTag,
    passwords := some st.vaultPasswords }

/-- The source function `saveToFile`: bump the version, stamp `updatedAt`, recompute the
verification plaintext, re-seal the token, write the document.  The state
mutations happen before the seal, so on a seal `throw` (`none` document) the
mutated state is kept and nothing is written, as in the source. -/
def saveToFile (E : Externals) (st : VaultState) (now : Nat) (ivRand : Nat → Nat) :
    VaultState × Option VaultDoc :=
  let st1 := { st with version := st.version + 1, updatedAt := now,
                       verificationPlaintext := E.entriesDigest st.vaultPasswords }
  match setVerificationToken st1 ivRand with
  | none => (st1, none)
  | some st2 => (st2, some (docOf st2))

/-- The source function `createFromFile`: copy each field the stored document has (the source's
sequential `'field' in content` blocks touch disjoint fields, written here as
one record update; entries are pushed onto the current — at this point empty
— list; the IV and tag are read only when the token is present, with `''`
fallbacks). -/
def createFromFile (st : VaultState) (docOpt : Option VaultDoc) : VaultState :=
  match docOpt with
  | none => st
  | some doc =>
    { st with
      createdAt := doc.createdAt.getD st.createdAt,
      updatedAt := doc.updatedAt.getD st.updatedAt,
      version := doc.version.getD st.version,
      salt := doc.salt.getD st.salt,
      vaultPasswords := st.vaultPasswords ++ doc.passwords.getD [],
      verificationToken := match doc.verificationToken with
        | some t => t
        | none => st.verificationToken,
      verificationIV := match doc.verificationToken with
        | some _ => doc.verificationIV.getD []
        | none => st.verificationIV,
      verificationTag := match doc.verificationToken with
        | some _ => doc.verificationTag.getD []
        | none => st.verificationTag }

/-- The constructor `new Vault(user)`: fresh state with random salt and secret key (passed in
as the sampled values), empty entries, empty verification data. -/
def mkVault (user : String) (now : Nat) (ctorSalt ctorSecret : String) : VaultState :=
  { user := user, createdAt := now, updatedAt := now, version := 1,
    vaultPasswords := [], salt := ctorSalt, secretKey := ctorSecret,
    token := none, remoteUpdatedAt := none,
    verificationToken := [], verificationIV := [], verificationTag := [],
    verificationPlaintext := [], derivedKey := [] }

/-- The `isNew = false` prefix of `factory`: construct, replace the secret
key by the stored one when present, load the document, derive the key.  (The
source guards the derivation with `this.derivedKey != new Uint8Array()`,
which is a reference comparison and always true, so the key is always
derived.) -/
def openLoad (E : Externals) (user mp : String) (diskDoc : Option VaultDoc)
    (diskSecret : Option String) (now : Nat) (ctorSalt ctorSecret : String) : VaultState :=
  let st := mkVault user now ctorSalt ctorSecret
  let st := match diskSecret with
    | some sk => { st with secretKey := sk }
    | none => st
  let st := createFromFile st diskDoc
  { st with derivedKey := deriveKey E st.salt mp st.secretKey }

/-- The source function `factory(masterPassword, isNew)`: result together with the list of vault
documents written to disk.  The `isNew = true` branch derives, saves, stores
the secret key, re-loads the just-written document; both branches then
verify the password (throwing on failure, with nothing further written) and
save again. -/
def factory (E : Externals) (user mp : String) (isNew : Bool)
    (diskDoc : Option VaultDoc) (diskSecret : Option String)
    (now : Nat) (ctorSalt ctorSecret : String) (ivRand1 ivRand2 : Nat → Nat) :
    Except String VaultState × List VaultDoc :=
  if isNew then
    let st := mkVault user now ctorSalt ctorSecret
    let st := { st with derivedKey := deriveKey E st.salt mp st.secretKey }
    match saveToFile E st now ivRand1 with
    | (_, none) => (Except.error "Invalid key size", [])
    | (st, some d1) =>
      let st := createFromFile st (some d1)
      let st := { st with derivedKey := deriveKey E st.salt mp st.secretKey }
      if verifyPassword E st then
        match saveToFile E st now ivRand2 with
        | (st2, some d2) => (Except.ok st2, [d1, d2])
        | (_, none) => (Except.error "Invalid key size", [d1])
      else (Except.error "Password verification failed", [d1])
  else
    let st := openLoad E user mp diskDoc diskSecret now ctorSalt ctorSecret
    if verifyPassword E st then
      match saveToFile E st now ivRand2 with
      | (st2, some d2) => (Except.ok st2, [d2])
      | (_, none) => (Except.error "Invalid key size", [])
    else (Except.error "Password verification failed", [])

end Vault

/-- Claim C2 — opening a vault with a wrong master password fails and writes
nothing: for every stored document and every password whose derived key does
not verify the stored verification envelope (which is what a wrong password
means at the cryptographic layer — the token was sealed under the key
derived from the creation password, and a different password verifies only
if PBKDF2 collides or the AEAD tag is forged), `factory` with
`isNew = false` raises the verification error and the list of documents
written to disk is empty. -/
theorem vault_open_wrong_password_fails_no_write (E : Externals) (user mp : String)
    (diskDoc : Option VaultDoc) (diskSecret : Option String) (now : Nat)
    (ctorSalt ctorSecret : String) (ivRand1 ivRand2 : Nat → Nat)
    (hfail : Vault.verifyPassword E
      (Vault.openLoad E user mp diskDoc diskSecret now ctorSalt ctorSecret) = false) :
    Vault.factory E user mp false diskDoc diskSecret now ctorSalt ctorSecret ivRand1 ivRand2 =
      (Except.error "Password verification failed", []) := by
  simp only [Vault.factory, Bool.false_eq_true, if_false, hfail]

/-- Witness for C2: a stored document whose verification tag is a single byte
(so AEAD decryption throws on the tag-size check) is rejected under a cheap
instantiation of the external primitives, and nothing is written. -/
theorem vault_open_wrong_password_fails_no_write_witness :
    (Vault.verifyPassword
        ⟨fun _ _ _ _ => "", fun _ => "", fun _ => [], fun _ => [], fun _ => some [], fun _ => []⟩
        (Vault.openLoad
          ⟨fun _ _ _ _ => "", fun _ => "", fun _ => [], fun _ => [], fun _ => some [], fun _ => []⟩
          "alice" "hunter2"
          (some { user := "alice", version := some 1, salt := some "s",
                  createdAt := some 0, updatedAt := some 0,
                  verificationToken := some [1], verificationIV := some [2],
                  verificationTag := some [3], passwords := some [] })
          (some "sk") 5 "cs" "csec") = false) ∧
      Vault.factory
        ⟨fun _ _ _ _ => "", fun _ => "", fun _ => [], fun _ => [], fun _ => some [], fun _ => []⟩
        "alice" "hunter2" false
        (some { user := "alice", version := some 1, salt := some "s",
                createdAt := some 0, updatedAt := some 0,
                verificationToken := some [1], verificationIV := some [2],
                verificationTag := some [3], passwords := some [] })
        (some "sk") 5 "cs" "csec" (fun _ => 0) (fun _ => 0) =
        (Except.error "Password verification failed", []) :=
  ⟨by decide, vault_open_wrong_password_fails_no_write _ _ _ _ _ _ _ _ _ _ (by decide)⟩

/-- Claim C9 — a loaded vault document that lacks the `verificationToken`,
`verificationIV` or `verificationTag` field verifies vacuously (no
decryption is attempted), so `factory` with `isNew = false` succeeds under
every master password (the derived key only has to be 32 bytes so that the
re-seal on save can encrypt, which the real PBKDF2 guarantees). -/
theorem vault_open_without_verification_fields_succeeds (E : Externals) (user mp : String)
    (doc : VaultDoc) (diskSecret : Option String) (now : Nat)
    (ctorSalt ctorSecret : String) (ivRand1 ivRand2 : Nat → Nat)
    (hmiss : doc.verificationToken = none ∨ doc.verificationIV = none ∨
      doc.verificationTag = none)
    (hkey : (Vault.openLoad E user mp (some doc) diskSecret now ctorSalt
      ctorSecret).derivedKey.length = 32) :
    Vault.verifyPassword E
        (Vault.openLoad E user mp (some doc) diskSecret now ctorSalt ctorSecret) = true ∧
      ∃ st d, Vault.factory E user mp false (some doc) diskSecret now ctorSalt ctorSecret
        ivRand1 ivRand2 = (Except.ok st, [d]) := by
  have hverify : Vault.verifyPassword E
      (Vault.openLoad E user mp (some doc) diskSecret now ctorSalt ctorSecret) = true := by
    unfold Vault.verifyPassword
    rw [if_pos]
    rcases hmiss with h | h | h
    · left
      cases diskSecret <;>
        simp [Vault.openLoad, Vault.createFromFile, Vault.mkVault, h]
    · rcases hex : doc.verificationToken with _ | t
      · left
        cases diskSecret <;>
          simp [Vault.openLoad, Vault.createFromFile, Vault.mkVault, hex]
      · right; left
        cases diskSecret <;>
          simp [Vault.openLoad, Vault.createFromFile, Vault.mkVault, hex, h]
    · rcases hex : doc.verificationToken with _ | t
      · left
        cases diskSecret <;>
          simp [Vault.openLoad, Vault.createFromFile, Vault.mkVault, hex]
      · right; right
        cases diskSecret <;>
          simp [Vault.openLoad, Vault.createFromFile, Vault.mkVault, hex, h]
  refine ⟨hverify, ?_⟩
  obtain ⟨r, hr⟩ := encrypt_isSome
    (Vault.openLoad E user mp (some doc) diskSecret now ctorSalt ctorSecret).derivedKey
    (generateRandomIV ivRand2)
    (E.entriesDigest (Vault.openLoad E user mp (some doc) diskSecret now ctorSalt
      ctorSecret).vaultPasswords) [] hkey
  simp only [Vault.factory, Bool.false_eq_true, if_false, hverify, if_true,
    Vault.saveToFile, Vault.setVerificationToken, hr]
  exact ⟨_, _, rfl⟩

/-- Cheap instantiation of the external primitives whose PBKDF2 returns 64
hex digits (so the derived key has 32 bytes), for witnesses. -/
def wExt : Externals :=
  ⟨fun _ _ _ _ => "0000000000000000000000000000000000000000000000000000000000000000",
   fun _ => "", fun _ => [], fun _ => [], fun _ => some [], fun _ => []⟩

/-- A stored vault document with no verification fields. -/
def wDocNoVerification : VaultDoc :=
  { user := "alice", version := some 1, salt := some "s", createdAt := some 0,
    updatedAt := some 0, verificationToken := none, verificationIV := none,
    verificationTag := none, passwords := some [] }

/-- Witness for C9: a concrete document without verification fields opens
under an arbitrary password. -/
theorem vault_open_without_verification_fields_succeeds_witness :
    ((wDocNoVerification.verificationToken = none ∨
        wDocNoVerification.verificationIV = none ∨
        wDocNoVerification.verificationTag = none) ∧
      (Vault.openLoad wExt "alice" "anything" (some wDocNoVerification) none 3 "cs"
        "csec").derivedKey.length = 32) ∧
      (Vault.verifyPassword wExt
          (Vault.openLoad wExt "alice" "anything" (some wDocNoVerification) none 3 "cs"
            "csec") = true ∧
        ∃ st d, Vault.factory wExt "alice" "anything" false (some wDocNoVerification) none 3
          "cs" "csec" (fun _ => 0) (fun _ => 0) = (Except.ok st, [d])) :=
  ⟨⟨by decide, by decide⟩,
    vault_open_without_verification_fields_succeeds wExt "alice" "anything"
      wDocNoVerification none 3 "cs" "csec" (fun _ => 0) (fun _ => 0)
      (by decide) (by decide)⟩

/-! ## Sync reconciler (src/unnamed/part_012, `sync` / `uploadVault` /
`importVaultData`) -/

/-- What the `GET /vault` in `sync` produced: a 404, any other non-ok
response (or a network error, both of which leave the vault untouched), or a
remote document. -/
inductive FetchResult where
  | noVault : FetchResult
  | httpError : FetchResult
  | ok : RemoteDoc → FetchResult

namespace Vault

/-- The source function `uploadVault`: serialize the entries, seal them into the transport
envelope, seal the envelope digest into the outer verification envelope, and
build the document that is POSTed; `none` models an encryption `throw`. -/
def uploadVault (E : Externals) (st : VaultState) (ivA ivB : Nat → Nat) : Option RemoteDoc :=
  let ivPass := generateRandomIV ivA
  match encrypt st.derivedKey ivPass (E.serializeEntries st.vaultPasswords) [] with
  | none => none
  | some encPassword =>
    let vaultEncData : SyncEnvelope := ⟨ivPass, encPassword.ciphertext, encPassword.tag⟩
    let verificationVaultSync := E.envDigest vaultEncData
    let ivVer := generateRandomIV ivB
    match encrypt st.derivedKey ivVer verificationVaultSync [] with
    | none => none
    | some encVer =>
      some { user := st.user, version := st.version, salt := st.salt,
             createdAt := st.createdAt, updatedAt := st.updatedAt,
             verificationIV := ivVer, verificationCiphertext := encVer.ciphertext,
             verificationTag := encVer.tag, vault := vaultEncData }

/-- The source function `importVaultData`: the source assigns `updatedAt` and `salt` from the
remote document *before* decrypting and checking the verification envelope;
a failure afterwards (`some` error) therefore leaves those two fields
already overwritten.  On success the entries are replaced by the parsed
remote entries (the later `data.salt !== this.salt` comparison is against
the already-copied salt and never fires, but is kept). -/
def importVaultData (E : Externals) (st : VaultState) (data : RemoteDoc) :
    VaultState × Option String :=
  let st := { st with updatedAt := data.updatedAt, salt := data.salt }
  match decrypt st.derivedKey data.verificationIV data.verificationCiphertext
      data.verificationTag [] with
  | none => (st, some "Authentication failed")
  | some verification =>
    if verification ≠ E.envDigest data.vault then
      (st, some "Remote import verification failed")
    else
      match decrypt st.derivedKey data.vault.vault_iv data.vault.vault_ciphertext
          data.vault.vault_tag [] with
      | none => (st, some "Authentication failed")
      | some passwordBytes =>
        match E.parseEntries passwordBytes with
        | none => (st, some "JSON parse failed")
        | some passwords =>
          let st := if data.salt ≠ st.salt then { st with salt := data.salt } else st
          ({ st with vaultPasswords := passwords }, none)

/-- The source function `sync`: no-op without a token; upload on 404; otherwise last-writer-wins
on `updatedAt`.  The download path imports and then calls `saveToFile`; every
`throw` inside the `try` is caught (partial mutations are kept, nothing more
happens).  Returns the state, the documents written to disk, and the
documents POSTed to the server. -/
def sync (E : Externals) (st : VaultState) (fetch : FetchResult) (now : Nat)
    (ivA ivB ivC : Nat → Nat) : VaultState × List VaultDoc × List RemoteDoc :=
  match st.token with
  | none => (st, [], [])
  | some _ =>
    match fetch with
    | .noVault =>
      match uploadVault E st ivA ivB with
      | none => (st, [], [])
      | some post => (st, [], [post])
    | .httpError => (st, [], [])
    | .ok remote =>
      if remote.updatedAt > st.updatedAt then
        match importVaultData E st remote with
        | (st', some _) => (st', [], [])
        | (st', none) =>
          let save := saveToFile E st' now ivC
          (save.1, save.2.toList, [])
      else if st.updatedAt > remote.updatedAt then
        match uploadVault E st ivA ivB with
        | none => (st, [], [])
        | some post => (st, [], [post])
      else (st, [], [])

end Vault

/-! ### Concrete fixtures for evaluating the engine -/

/-- A 32-byte key for concrete runs. -/
def tKey : List Nat := List.replicate 32 0

/-- A 12-byte IV for concrete runs. -/
def tIV12 : List Nat := List.replicate 12 0

/-- A sample entry. -/
def tEntry : Password :=
  ⟨7, [], [], [], [], [], [], "github.com", "", "", false, 0, 0⟩

/-- Encryption of `pt` under `tKey`/`tIV12` (the key has 32 bytes, so this is
always `some`). -/
def tEnc (pt : List Nat) : GCMEncryptResult := (encrypt tKey tIV12 pt []).getD ⟨[], []⟩

/-- Externals for the C4 run: the remote payload parses to `[tEntry]`, the
envelope digest is the constant `[1, 2]`. -/
def syncExt : Externals :=
  ⟨fun _ _ _ _ => "", fun _ => "", fun _ => [], fun _ => [],
   fun _ => some [tEntry], fun _ => [1, 2]⟩

/-- A local vault, last saved at time 100, version 3. -/
def syncLocal : VaultState :=
  { user := "alice", createdAt := 0, updatedAt := 100, version := 3,
    vaultPasswords := [], salt := "localSalt", secretKey := "sk",
    token := some "tok", remoteUpdatedAt := none,
    verificationToken := [], verificationIV := [], verificationTag := [],
    verificationPlaintext := [], derivedKey := tKey }

/-- A remote document newer than `syncLocal` (`updatedAt = 200 > 100`) whose
integrity envelope checks out: the outer envelope decrypts to `[1, 2]`, the
digest `syncExt.envDigest` of the inner envelope. -/
def syncRemote : RemoteDoc :=
  { user := "alice", version := 9, salt := "remoteSalt", createdAt := 1,
    updatedAt := 200, verificationIV := tIV12,
    verificationCiphertext := (tEnc [1, 2]).ciphertext,
    verificationTag := (tEnc [1, 2]).tag,
    vault := ⟨tIV12, (tEnc []).ciphertext, (tEnc []).tag⟩ }

set_option maxRecDepth 4000000 in
set_option maxHeartbeats 4000000 in
/-- Claim C4 — the sync download path violates the claim: after `sync` pulls a
strictly newer remote document that passes the integrity check, the local
entries do equal the remote entries, but the persisted document's version IS
incremented (3 → 4) and the local `updatedAt` is set to the save-time clock
(300), not to the remote `updatedAt` (200) — `sync` re-saves through
`saveToFile` instead of a version-preserving save. -/
theorem vault_sync_download_version_bump_cex :
    (Vault.sync syncExt syncLocal (FetchResult.ok syncRemote) 300 (fun _ => 0) (fun _ => 0)
        (fun _ => 0)).1.vaultPasswords = [tEntry] ∧
    ((Vault.sync syncExt syncLocal (FetchResult.ok syncRemote) 300 (fun _ => 0) (fun _ => 0)
        (fun _ => 0)).2.1).map (fun d => (d.version, d.updatedAt)) = [(some 4, some 300)] ∧
    syncRemote.updatedAt = 200 ∧ syncLocal.version = 3 := by
  refine ⟨by decide, by decide, by decide, by decide⟩

/-- Externals for the C5 run: the envelope digest is the constant `[9]`,
which the tampered outer envelope (decrypting to `[7]`) does not match. -/
def importExt : Externals :=
  ⟨fun _ _ _ _ => "", fun _ => "", fun _ => [], fun _ => [],
   fun _ => some [], fun _ => [9]⟩

/-- A local vault holding one entry, salt `"localSalt"`, `updatedAt = 100`. -/
def importLocal : VaultState :=
  { user := "alice", createdAt := 0, updatedAt := 100, version := 3,
    vaultPasswords := [tEntry], salt := "localSalt", secretKey := "sk",
    token := some "tok", remoteUpdatedAt := none,
    verificationToken := [], verificationIV := [], verificationTag := [],
    verificationPlaintext := [], derivedKey := tKey }

/-- A remote document failing the integrity comparison: its outer
verification envelope decrypts to `[7]` while the digest of its inner
envelope is `[9]`. -/
def importRemote : RemoteDoc :=
  { user := "alice", version := 9, salt := "remoteSalt", createdAt := 1,
    updatedAt := 200, verificationIV := tIV12,
    verificationCiphertext := (tEnc [7]).ciphertext,
    verificationTag := (tEnc [7]).tag,
    vault := ⟨tIV12, [], []⟩ }

set_option maxRecDepth 4000000 in
set_option maxHeartbeats 4000000 in
/-- Claim C5 — integrity failure is not atomic: `importVaultData` on a remote
document whose decrypted outer envelope (`[7]`) differs from the digest of
the inner envelope (`[9]`) does raise the verification error, but the local
salt and `updatedAt` have already been overwritten with the remote values
(`"localSalt"` → `"remoteSalt"`, 100 → 200); only the entries and the disk
document survive. -/
theorem vault_import_integrity_failure_mutates_state_cex :
    (Vault.importVaultData importExt importLocal importRemote).2 =
        some "Remote import verification failed" ∧
    (Vault.importVaultData importExt importLocal importRemote).1.salt = "remoteSalt" ∧
    (Vault.importVaultData importExt importLocal importRemote).1.updatedAt = 200 ∧
    (Vault.importVaultData importExt importLocal importRemote).1.vaultPasswords = [tEntry] ∧
    importLocal.salt = "localSalt" ∧ importLocal.updatedAt = 100 := by
  refine ⟨by decide, by decide, by decide, by decide, by decide, by decide⟩

/-! ## addPassword / removePassword (src/unnamed/part_012) -/

/-- The builtin `Array.prototype.splice(i, 1)`: drop the element at index `i` (nothing
when `i` is out of range). -/
def spliceOne (l : List Password) (i : Nat) : List Password :=
  l.take i ++ l.drop (i + 1)

/-- The loop of `removePassword`: scan `i = 0, 1, …` against the *current*
length; when the entry at position `i` has the requested id, call
`splice(id, 1)` — the source passes the id where the index belongs.  The
bound (the initial length) covers the loop: `i` grows every iteration and
the list never grows. -/
def removeLoopGo : Nat → Nat → Nat → List Password → List Password
  | 0, _, _, l => l
  | fuel + 1, id, i, l =>
      if h : i < l.length then
        removeLoopGo fuel id (i + 1)
          (if (l.get ⟨i, h⟩).passwordId = id then spliceOne l id else l)
      else l

namespace Vault

/-- The source function `removePassword(id)`: run the scan-and-splice loop, stamp `updatedAt`,
save, sync. -/
def removePassword (E : Externals) (st : VaultState) (id : Nat) (now : Nat)
    (ivC : Nat → Nat) (fetch : FetchResult) (sA sB sC : Nat → Nat) :
    VaultState × List VaultDoc × List RemoteDoc :=
  let st := { st with
    vaultPasswords := removeLoopGo st.vaultPasswords.length id 0 st.vaultPasswords }
  let st := { st with updatedAt := now }
  let save := saveToFile E st now ivC
  let s := sync E save.1 fetch now sA sB sC
  (s.1, save.2.toList ++ s.2.1, s.2.2)

/-- The source function `addPassword(user, password, site, note, category, favorite)`: two fresh
IVs, encrypt both credentials, id = last entry's id + 1 (0 on empty), append
the entry, save, sync.  `Except.error` models the `throw` of a wrong-size
key inside `encrypt`. -/
def addPassword (E : Externals) (st : VaultState) (userB passwordB : List Nat)
    (site note category : String) (favorite : Bool) (now : Nat)
    (ivP ivU ivC : Nat → Nat) (fetch : FetchResult) (sA sB sC : Nat → Nat) :
    Except String (VaultState × List VaultDoc × List RemoteDoc) :=
  let ivPass := generateRandomIV ivP
  let ivUser := generateRandomIV ivU
  match encrypt st.derivedKey ivPass passwordB [], encrypt st.derivedKey ivUser userB [] with
  | some encPassword, some encUser =>
    let passId := match st.vaultPasswords.getLast? with
      | none => 0
      | some p => p.passwordId + 1
    let st := { st with
      updatedAt := now,
      vaultPasswords := st.vaultPasswords ++
        [⟨passId, encUser.ciphertext, ivUser, encUser.tag,
          encPassword.ciphertext, ivPass, encPassword.tag,
          site, note, category, favorite, now, now⟩] }
    let save := saveToFile E st now ivC
    let s := sync E save.1 fetch now sA sB sC
    Except.ok (s.1, save.2.toList ++ s.2.1, s.2.2)
  | _, _ => Except.error "Invalid key size"

end Vault

/-- An entry with identifier 5. -/
def tEntry5 : Password :=
  ⟨5, [], [], [], [], [], [], "bank", "", "", false, 0, 0⟩

/-- An entry with identifier 3. -/
def tEntry3 : Password :=
  ⟨3, [], [], [], [], [], [], "mail", "", "", false, 0, 0⟩

/-- Externals whose serialized/digest outputs are all trivial (the engine
only feeds them to encryption, which any byte list satisfies). -/
def remExt : Externals :=
  ⟨fun _ _ _ _ => "", fun _ => "", fun _ => [], fun _ => [],
   fun _ => some [], fun _ => []⟩

/-- A vault whose only entry has identifier 5 (no sync token, 32-byte key). -/
def removeLocal : VaultState :=
  { user := "alice", createdAt := 0, updatedAt := 100, version := 3,
    vaultPasswords := [tEntry5], salt := "s", secretKey := "sk",
    token := none, remoteUpdatedAt := none,
    verificationToken := [], verificationIV := [], verificationTag := [],
    verificationPlaintext := [], derivedKey := tKey }

set_option maxRecDepth 4000000 in
set_option maxHeartbeats 4000000 in
/-- Claim C6 — `removePassword(id)` does not delete by id: in a vault whose
single entry has identifier 5, `removePassword 5` matches the entry but then
splices at *index* 5 (out of range, so nothing is removed); the entry with
identifier 5 is still present afterwards, contradicting the claim that no
entry with that identifier remains. -/
theorem vault_remove_by_id_leaves_entry_cex :
    ((Vault.removePassword remExt removeLocal 5 300 (fun _ => 0) FetchResult.httpError
        (fun _ => 0) (fun _ => 0) (fun _ => 0)).1.vaultPasswords.map Password.passwordId)
      = [5] ∧
    removeLocal.vaultPasswords.map Password.passwordId = [5] := by
  refine ⟨by decide, by decide⟩

/-- An empty vault with a 32-byte key and no sync token. -/
def addLocal : VaultState :=
  { user := "alice", createdAt := 0, updatedAt := 100, version := 3,
    vaultPasswords := [], salt := "s", secretKey := "sk",
    token := none, remoteUpdatedAt := none,
    verificationToken := [], verificationIV := [], verificationTag := [],
    verificationPlaintext := [], derivedKey := tKey }

set_option maxRecDepth 4000000 in
set_option maxHeartbeats 4000000 in
/-- Counterexample for **C7**: on a concrete `addPassword` run the created
entry's username and password envelopes each carry a 16-byte nonce —
`generateRandomIV` fills `new Uint8Array(16)` — not the 12-byte nonce the
claim states. -/
theorem vault_add_nonce_length_cex :
    ((Vault.addPassword remExt addLocal [1] [2] "example.com" "" "" false 50
        (fun _ => 1) (fun _ => 2) (fun _ => 0) FetchResult.httpError
        (fun _ => 0) (fun _ => 0) (fun _ => 0)).toOption.map
      (fun p => p.1.vaultPasswords.map (fun e => (e.usernameIV.length, e.passwordIV.length))))
      = some [(16, 16)] ∧ (16 : Nat) ≠ 12 := by
  refine ⟨by decide, by decide⟩

/-- Claim C7 (amended) — fresh 16-byte nonces on add: the entry created by
`addPassword` carries the two freshly sampled IVs, each 16 bytes long (not
12 as the claim stated), one in the username envelope and the other in the
password envelope; whenever the two sampled IVs differ — which is all that
"fresh random nonces are distinct" can mean once the randomness is an input
— the two envelopes carry distinct nonces. -/
theorem vault_add_nonces_sixteen_bytes_distinct (E : Externals) (st : VaultState)
    (userB passwordB : List Nat) (site note category : String) (favorite : Bool)
    (now : Nat) (ivP ivU ivC : Nat → Nat) (fetch : FetchResult) (sA sB sC : Nat → Nat)
    (hkey : st.derivedKey.length = 32)
    (hne : generateRandomIV ivU ≠ generateRandomIV ivP) :
    ∃ res d rest e,
      Vault.addPassword E st userB passwordB site note category favorite now
        ivP ivU ivC fetch sA sB sC = Except.ok res ∧
      res.2.1 = d :: rest ∧
      d.passwords = some (st.vaultPasswords ++ [e]) ∧
      e.usernameIV = generateRandomIV ivU ∧
      e.passwordIV = generateRandomIV ivP ∧
      e.usernameIV.length = 16 ∧ e.passwordIV.length = 16 ∧
      e.usernameIV ≠ e.passwordIV := by
  obtain ⟨rP, hrP⟩ := encrypt_isSome st.derivedKey (generateRandomIV ivP) passwordB [] hkey
  obtain ⟨rU, hrU⟩ := encrypt_isSome st.derivedKey (generateRandomIV ivU) userB [] hkey
  obtain ⟨rT, hrT⟩ := encrypt_isSome st.derivedKey (generateRandomIV ivC)
    (E.entriesDigest (st.vaultPasswords ++
      [⟨(match st.vaultPasswords.getLast? with
          | none => 0
          | some p => p.passwordId + 1),
        rU.ciphertext, generateRandomIV ivU, rU.tag,
        rP.ciphertext, generateRandomIV ivP, rP.tag,
        site, note, category, favorite, now, now⟩])) [] hkey
  simp only [Vault.addPassword, hrP, hrU, Vault.saveToFile, Vault.setVerificationToken, hrT]
  exact ⟨_, _, _, _, rfl, rfl, rfl, rfl, rfl, by simp [generateRandomIV],
    by simp [generateRandomIV], hne⟩

/-- Witness for C7 (amended) at concrete cheap inputs. -/
theorem vault_add_nonces_sixteen_bytes_distinct_witness :
    (addLocal.derivedKey.length = 32 ∧
      generateRandomIV (fun _ => 2) ≠ generateRandomIV (fun _ => 1)) ∧
    ∃ res d rest e,
      Vault.addPassword remExt addLocal [1] [2] "example.com" "" "" false 50
        (fun _ => 1) (fun _ => 2) (fun _ => 0) FetchResult.httpError
        (fun _ => 1) (fun _ => 1) (fun _ => 1) = Except.ok res ∧
      res.2.1 = d :: rest ∧
      d.passwords = some (addLocal.vaultPasswords ++ [e]) ∧
      e.usernameIV = generateRandomIV (fun _ => 2) ∧
      e.passwordIV = generateRandomIV (fun _ => 1) ∧
      e.usernameIV.length = 16 ∧ e.passwordIV.length = 16 ∧
      e.usernameIV ≠ e.passwordIV :=
  ⟨⟨by decide, by decide⟩,
    vault_add_nonces_sixteen_bytes_distinct remExt addLocal [1] [2] "example.com" "" ""
      false 50 (fun _ => 1) (fun _ => 2) (fun _ => 0) FetchResult.httpError
      (fun _ => 1) (fun _ => 1) (fun _ => 1) (by decide) (by decide)⟩

/-- A vault whose entries carry identifiers 5 then 3 (as a download from a
peer can order them), with a 32-byte key and no sync token. -/
def addLocal2 : VaultState :=
  { user := "alice", createdAt := 0, updatedAt := 100, version := 3,
    vaultPasswords := [tEntry5, tEntry3], salt := "s", secretKey := "sk",
    token := none, remoteUpdatedAt := none,
    verificationToken := [], verificationIV := [], verificationTag := [],
    verificationPlaintext := [], derivedKey := tKey }

set_option maxRecDepth 4000000 in
set_option maxHeartbeats 4000000 in
/-- Counterexample for **C8**: on a vault whose entries have identifiers
`[5, 3]`, `addPassword` assigns the new entry identifier 4 (last entry's id
3, plus one), not `max + 1 = 6` as the claim states. -/
theorem vault_add_id_assignment_cex :
    ((Vault.addPassword remExt addLocal2 [1] [2] "example.com" "" "" false 50
        (fun _ => 1) (fun _ => 2) (fun _ => 0) FetchResult.httpError
        (fun _ => 0) (fun _ => 0) (fun _ => 0)).toOption.map
      (fun p => p.1.vaultPasswords.map Password.passwordId)) = some [5, 3, 4] ∧
    Nat.max 5 3 + 1 = 6 ∧ (4 : Nat) ≠ 6 := by
  refine ⟨by decide, by decide, by decide⟩

/-- Claim C8 (amended) — identifier assignment on add: `addPassword` assigns
the new entry the identifier of the *last* entry in the list plus one, or 0
when the list is empty (this equals max + 1 only while the list is sorted by
identifier). -/
theorem vault_add_id_is_last_plus_one (E : Externals) (st : VaultState)
    (userB passwordB : List Nat) (site note category : String) (favorite : Bool)
    (now : Nat) (ivP ivU ivC : Nat → Nat) (fetch : FetchResult) (sA sB sC : Nat → Nat)
    (hkey : st.derivedKey.length = 32) :
    ∃ res d rest e,
      Vault.addPassword E st userB passwordB site note category favorite now
        ivP ivU ivC fetch sA sB sC = Except.ok res ∧
      res.2.1 = d :: rest ∧
      d.passwords = some (st.vaultPasswords ++ [e]) ∧
      e.passwordId = (match st.vaultPasswords.getLast? with
        | none => 0
        | some p => p.passwordId + 1) := by
  obtain ⟨rP, hrP⟩ := encrypt_isSome st.derivedKey (generateRandomIV ivP) passwordB [] hkey
  obtain ⟨rU, hrU⟩ := encrypt_isSome st.derivedKey (generateRandomIV ivU) userB [] hkey
  obtain ⟨rT, hrT⟩ := encrypt_isSome st.derivedKey (generateRandomIV ivC)
    (E.entriesDigest (st.vaultPasswords ++
      [⟨(match st.vaultPasswords.getLast? with
          | none => 0
          | some p => p.passwordId + 1),
        rU.ciphertext, generateRandomIV ivU, rU.tag,
        rP.ciphertext, generateRandomIV ivP, rP.tag,
        site, note, category, favorite, now, now⟩])) [] hkey
  simp only [Vault.addPassword, hrP, hrU, Vault.saveToFile, Vault.setVerificationToken, hrT]
  exact ⟨_, _, _, _, rfl, rfl, rfl, rfl⟩

/-- Witness for C8 (amended) on the `[5, 3]` vault. -/
theorem vault_add_id_is_last_plus_one_witness :
    addLocal2.derivedKey.length = 32 ∧
    ∃ res d rest e,
      Vault.addPassword remExt addLocal2 [9] [8] "example.com" "" "" false 50
        (fun _ => 1) (fun _ => 2) (fun _ => 0) FetchResult.httpError
        (fun _ => 1) (fun _ => 1) (fun _ => 1) = Except.ok res ∧
      res.2.1 = d :: rest ∧
      d.passwords = some (addLocal2.vaultPasswords ++ [e]) ∧
      e.passwordId = (match addLocal2.vaultPasswords.getLast? with
        | none => 0
        | some p => p.passwordId + 1) :=
  ⟨by decide,
    vault_add_id_is_last_plus_one remExt addLocal2 [9] [8] "example.com" "" "" false 50
      (fun _ => 1) (fun _ => 2) (fun _ => 0) FetchResult.httpError
      (fun _ => 1) (fun _ => 1) (fun _ => 1) (by decide)⟩

/-! ## SRP-6a (src/packages/shared/src/srp.ts)

The WASM `sha256` is the only external dependency; the SRP functions receive
it as a parameter `h : String → String` (hex-string in, hex digest out, per
§4.4/§4.7 of the spec).  BigInt hex conversions (`BigInt("0x" + s)`,
`x.toString(16)`) are embedded as an executable codec. -/

namespace SRP

/-- The 2048-bit MODP group prime `N` (RFC 5054), as compiled into srp.ts. -/
def N : Nat := 0xAC6BDB41324A9A9BF166DE5E1389582FAF72B6651987EE07FC3192943DB56050A37329CBB4A099ED8193E0757767A13DD52312AB4B03310DCD7F48A9DA04FD50E8083969EDB767B0CF6095179A163AB3661A05FBD5FAAAE82918A9962F0B93B855F97993EC975EEAA80D740ADBF4D6DB71577363ED7557A605FC81B2976D98DD719307281B7BB2C07971BA8675F5CF5D0E576B429A44CA431F75F6A931881B94AC25B2822B7E1B108929A88C1544DD7D3B5198AB29930D91D2702CB46820257B7B132C3A5576C71708A899C6A3644917C9B1093153545A25345914614A797A7C6B7B4B74044A5405608674F7565349282D20A10243166BE5E744116041C83F30C665672013

/-- The generator `g = 2`. -/
def g : Nat := 2

/-- The `while exp > 0` loop of `modPow`, with the exponent itself as the
structural bound (each iteration halves the exponent). -/
def modPowGo (m : Nat) : Nat → Nat → Nat → Nat → Nat
  | 0, _, _, res => res
  | fuel + 1, b, e, res =>
      if e = 0 then res
      else modPowGo m fuel (b * b % m) (e / 2) (if e % 2 = 1 then res * b % m else res)

/-- The source function `modPow(base, exp, mod)`: square-and-multiply, with `base % mod` first as
in the source. -/
def modPow (base exp mod : Nat) : Nat := modPowGo mod exp (base % mod) exp 1

theorem modPowGo_eq (m : Nat) (hm : 1 < m) :
    ∀ fuel e b res, e ≤ fuel → b < m → res < m →
      modPowGo m fuel b e res = res * b ^ e % m := by
  intro fuel
  induction fuel with
  | zero =>
    intro e b res he _ hres
    have he0 : e = 0 := Nat.le_zero.mp he
    subst he0
    simp [modPowGo, Nat.mod_eq_of_lt hres]
  | succ n ih =>
    intro e b res he hb hres
    by_cases he0 : e = 0
    · subst he0
      simp [modPowGo, Nat.mod_eq_of_lt hres]
    · have hstep : modPowGo m (n + 1) b e res =
          modPowGo m n (b * b % m) (e / 2) (if e % 2 = 1 then res * b % m else res) := by
        simp only [modPowGo, if_neg he0]
      rw [hstep]
      have hm0 : 0 < m := by omega
      have hdiv : e / 2 ≤ n := by
        have := Nat.div_lt_self (Nat.pos_of_ne_zero he0) (one_lt_two)
        omega
      have hb2 : b * b % m < m := Nat.mod_lt _ hm0
      have hres2 : (if e % 2 = 1 then res * b % m else res) < m := by
        split
        · exact Nat.mod_lt _ hm0
        · exact hres
      rw [ih (e / 2) (b * b % m) _ hdiv hb2 hres2]
      have hcast : (if e % 2 = 1 then res * b % m else res) * (b * b % m) ^ (e / 2) % m =
          res * b ^ e % m := by
        have hA : (b * b % m) ^ (e / 2) ≡ (b * b) ^ (e / 2) [MOD m] :=
          (Nat.mod_modEq (b * b) m).pow _
        have hB : (if e % 2 = 1 then res * b % m else res) ≡ res * b ^ (e % 2) [MOD m] := by
          rcases Nat.mod_two_eq_zero_or_one e with h2 | h2
          · have hif : (if e % 2 = 1 then res * b % m else res) = res := by
              rw [h2]; simp
            rw [hif, h2, pow_zero, mul_one]
          · simp only [h2, if_pos rfl, pow_one]
            exact Nat.mod_modEq _ _
        have hcomb := hB.mul hA
        have harith : res * b ^ (e % 2) * (b * b) ^ (e / 2) = res * b ^ e := by
          rw [← pow_two, ← pow_mul, mul_assoc, ← pow_add]
          congr 2
          omega
        rw [harith] at hcomb
        exact hcomb
      exact hcast

theorem modPow_eq (b e m : Nat) (hm : 1 < m) : modPow b e m = b ^ e % m := by
  unfold modPow
  rw [modPowGo_eq m hm e e (b % m) 1 le_rfl (Nat.mod_lt _ (by omega)) (by omega)]
  rw [one_mul, ← Nat.pow_mod]

/-- Hex digit character (`toString(16)` output alphabet). -/
def toHexDigit (n : Nat) : Char := Char.ofNat (if n < 10 then 48 + n else 87 + n)

/-- Digits of `n` base 16, most significant first (empty for 0); `n` itself
bounds the number of divisions. -/
def natToHexGo : Nat → Nat → List Char
  | 0, _ => []
  | fuel + 1, n => if n = 0 then [] else natToHexGo fuel (n / 16) ++ [toHexDigit (n % 16)]

/-- The source function `x.toString(16)` on a nonnegative BigInt. -/
def natToHex (n : Nat) : String := if n = 0 then "0" else String.mk (natToHexGo n n)

/-- The source function `BigInt("0x" + s)`. -/
def hexToNat (s : String) : Nat :=
  s.data.foldl (fun acc c => 16 * acc + hexDigitVal c) 0

theorem hexDigitVal_toHexDigit (d : Nat) (hd : d < 16) : hexDigitVal (toHexDigit d) = d := by
  interval_cases d <;> decide

theorem natToHexGo_foldl :
    ∀ fuel n acc, n ≤ fuel →
      List.foldl (fun acc c => 16 * acc + hexDigitVal c) acc (natToHexGo fuel n) =
        acc * 16 ^ (natToHexGo fuel n).length + n := by
  intro fuel
  induction fuel with
  | zero =>
    intro n acc hn
    have : n = 0 := Nat.le_zero.mp hn
    subst this
    simp [natToHexGo]
  | succ f ih =>
    intro n acc hn
    by_cases hn0 : n = 0
    · subst hn0
      simp [natToHexGo]
    · have hrec : natToHexGo (f + 1) n = natToHexGo f (n / 16) ++ [toHexDigit (n % 16)] := by
        simp only [natToHexGo, if_neg hn0]
      have hdiv : n / 16 ≤ f := by
        have h16 : (1 : Nat) < 16 := by norm_num
        have := Nat.div_lt_self (Nat.pos_of_ne_zero hn0) h16
        omega
      rw [hrec, List.foldl_append]
      rw [ih (n / 16) acc hdiv]
      simp only [List.foldl_cons, List.foldl_nil, List.length_append, List.length_cons,
        List.length_nil]
      rw [hexDigitVal_toHexDigit (n % 16) (Nat.mod_lt _ (by omega))]
      rw [pow_succ]
      have := Nat.div_add_mod n 16
      ring_nf
      omega

theorem hexToNat_natToHex (n : Nat) : hexToNat (natToHex n) = n := by
  unfold natToHex hexToNat
  split
  · rename_i h
    subst h
    decide
  · show List.foldl _ 0 (natToHexGo n n) = n
    rw [natToHexGo_foldl n n 0 le_rfl]
    simp

/-- Even-length lowercase hex of a BigInt (the canonical byte form `H` uses:
`toString(16)` with a leading `0` nibble when the length is odd). -/
def evenHex (x : Nat) : String :=
  let s := natToHex x
  if s.length % 2 = 1 then "0" ++ s else s

/-- The `H(...)` helper over two BigInt arguments (the only arity used): the
canonical byte forms are concatenated, re-hexed and fed to `sha256`; the
digest is read back as a BigInt. -/
def Hbig (h : String → String) (x y : Nat) : Nat := hexToNat (h (evenHex x ++ evenHex y))

/-- The source function `k = H(N, g)`, computed in `initSRP`. -/
def kVal (h : String → String) : Nat := Hbig h N g

/-- The source function `H_pad(S).toString('hex')`: the hex of `S` left-zero-padded to 256 bytes
(512 hex digits). -/
def padNhex (S : Nat) : String :=
  let s := evenHex S
  if s.length < 512 then String.mk (List.replicate (512 - s.length) '0') ++ s else s

/-- The `while (base < 0) base += N` adjustment of `computeSession`, with an
explicit bound (`N ≥ 1`, so `(-b).toNat + 1` additions always reach 0). -/
def fixBaseGo : Nat → Int → Int
  | 0, b => b
  | fuel + 1, b => if b < 0 then fixBaseGo fuel (b + (N : Int)) else b

/-- The adjusted base in `[0, …)`, congruent to the input mod `N`. -/
def fixBase (b : Int) : Int := fixBaseGo ((-b).toNat + 1) b

theorem fixBaseGo_spec :
    ∀ (fuel : Nat) (b : Int), -b ≤ (fuel : Int) * (N : Int) →
      0 ≤ fixBaseGo fuel b ∧ fixBaseGo fuel b % (N : Int) = b % (N : Int) := by
  intro fuel
  induction fuel with
  | zero =>
    intro b hb
    simp only [Nat.cast_zero, zero_mul] at hb
    simp only [fixBaseGo]
    exact ⟨by omega, trivial⟩
  | succ f ih =>
    intro b hb
    by_cases hneg : b < 0
    · have hstep : fixBaseGo (f + 1) b = fixBaseGo f (b + (N : Int)) := by
        simp only [fixBaseGo, if_pos hneg]
      rw [hstep]
      have hrec := ih (b + (N : Int)) (by push_cast at hb ⊢; linarith)
      refine ⟨hrec.1, ?_⟩
      rw [hrec.2]
      rw [show b + (N : Int) = b + (N : Int) * 1 by ring, Int.add_mul_emod_self_left]
    · simp only [fixBaseGo, if_neg hneg]
      exact ⟨by omega, trivial⟩

theorem fixBase_spec (b : Int) :
    0 ≤ fixBase b ∧ fixBase b % (N : Int) = b % (N : Int) := by
  unfold fixBase
  apply fixBaseGo_spec
  have hN : (1 : Int) ≤ (N : Int) := by
    have : (1 : Nat) ≤ N := by decide
    exact_mod_cast this
  have h1 : -b ≤ ((-b).toNat : Int) := Int.self_le_toNat _
  have h2 : ((-b).toNat : Int) + 1 ≤ (((-b).toNat : Int) + 1) * (N : Int) :=
    le_mul_of_one_le_right (by positivity) hN
  push_cast
  linarith

/-- The source function `SRPClient.generateRegistration(password)`: fresh salt (passed in),
`x = sha256(salt + password)` parsed as hex, verifier `g^x mod N` in hex. -/
def generateRegistration (h : String → String) (srpSalt password : String) :
    String × String :=
  let x := hexToNat (h (srpSalt ++ password))
  let v := modPow g x N
  (srpSalt, natToHex v)

/-- The source function `SRPClient.computeSession(salt, username, password, a_hex, B_hex)`. -/
def computeSession (h : String → String) (salt username password a_hex B_hex : String) :
    Except String (String × String × String) :=
  let a := hexToNat a_hex
  let B := hexToNat B_hex
  if B % N = 0 then Except.error "Safety check failed: B is zero"
  else
    let A := modPow g a N
    let u := Hbig h A B
    let x := hexToNat (h (salt ++ password))
    let v := modPow g x N
    let base := fixBase ((B : Int) - ((kVal h * v % N : Nat) : Int))
    let S := modPow base.toNat (a + u * x) N
    let K := h (padNhex S)
    let M1 := h (natToHex A ++ natToHex B ++ K)
    let M2 := h (natToHex A ++ M1 ++ K)
    Except.ok (K, M1, M2)

/-- The source function `SRPServer.generateEphemeral(verifier)`: `B = (k·v + g^b) mod N`, both
ephemerals returned in hex.  (The randomness `b_val` is passed in.) -/
def serverGenerateEphemeral (h : String → String) (b_val : Nat) (verifier : String) :
    String × String :=
  let v := hexToNat verifier
  let gb := modPow g b_val N
  let kv := kVal h * v % N
  let B_val := (kv + gb) % N
  (natToHex b_val, natToHex B_val)

/-- The source function `SRPServer.verifySession(username, salt, verifier, A_hex, b_hex,
M1_client)`: recompute `B`, `u`, `S = (A·v^u)^b mod N`, `K`, the expected
`M1`; reject on mismatch, otherwise return `K` and `M2`. -/
def verifySession (h : String → String)
    (username salt verifier A_hex b_hex M1_client : String) :
    Except String (String × String) :=
  let A := hexToNat A_hex
  let b := hexToNat b_hex
  let v := hexToNat verifier
  if A % N = 0 then Except.error "Safety check failed: A is zero"
  else
    let gb := modPow g b N
    let kv := kVal h * v % N
    let B := (kv + gb) % N
    let u := Hbig h A B
    let vu := modPow v u N
    let base := A * vu % N
    let S := modPow base b N
    let K_hex := h (padNhex S)
    let expectedM1 := h (natToHex A ++ natToHex B ++ K_hex)
    if M1_client ≠ expectedM1 then Except.error "Invalid proof"
    else Except.ok (K_hex, h (natToHex A ++ M1_client ++ K_hex))

/-- The two sides compute the same shared secret: the client's
`(B − k·v mod N)^(a+u·x) mod N` (base adjusted into nonnegative range)
equals the server's `(A · v^u)^b mod N`, both congruent to
`g^(b·(a+u·x))`. -/
theorem sharedSecret_eq (k u x a b : Nat) :
    modPow (fixBase ((((k * modPow g x N % N + modPow g b N) % N : Nat) : Int) -
        ((k * modPow g x N % N : Nat) : Int))).toNat (a + u * x) N =
    modPow (modPow g a N * modPow (modPow g x N) u N % N) b N := by
  have hN1 : 1 < N := by decide
  have hN0 : 0 < N := by omega
  have e1 : modPow g x N = g ^ x % N := modPow_eq _ _ _ hN1
  have e2 : modPow g b N = g ^ b % N := modPow_eq _ _ _ hN1
  have e3 : modPow g a N = g ^ a % N := modPow_eq _ _ _ hN1
  rw [e1, e2, e3, modPow_eq _ _ _ hN1, modPow_eq _ _ _ hN1, modPow_eq _ _ _ hN1]
  generalize k * (g ^ x % N) % N = c
  obtain ⟨hpos, hmod⟩ := fixBase_spec ((((c + g ^ b % N) % N : Nat) : Int) - ((c : Nat) : Int))
  set bc := (fixBase ((((c + g ^ b % N) % N : Nat) : Int) - ((c : Nat) : Int))).toNat with hbc
  have hbcInt : (bc : Int) =
      fixBase ((((c + g ^ b % N) % N : Nat) : Int) - ((c : Nat) : Int)) :=
    Int.toNat_of_nonneg hpos
  have hstep1 : (bc : Int) ≡ ((((c + g ^ b % N) % N : Nat) : Int) - ((c : Nat) : Int))
      [ZMOD (N : Nat)] := by
    show (bc : Int) % (N : Int) = _ % (N : Int)
    rw [hbcInt]
    exact hmod
  have hstep2 : ((((c + g ^ b % N) % N : Nat) : Int) - ((c : Nat) : Int)) ≡
      (((g ^ b % N : Nat) : Int)) [ZMOD (N : Nat)] := by
    have hsub := Int.ModEq.sub_right ((c : Nat) : Int)
      (Int.natCast_modEq_iff.mpr (Nat.mod_modEq (c + g ^ b % N) N))
    have harith : ((c + g ^ b % N : Nat) : Int) - ((c : Nat) : Int) = ((g ^ b % N : Nat) : Int) := by
      push_cast
      ring
    rw [harith] at hsub
    exact hsub
  have hcongN : bc ≡ g ^ b % N [MOD N] :=
    Int.natCast_modEq_iff.mp (hstep1.trans hstep2)
  have hleft : bc ^ (a + u * x) ≡ (g ^ b) ^ (a + u * x) [MOD N] :=
    (hcongN.trans (Nat.mod_modEq _ _)).pow _
  have hbase : g ^ a % N * ((g ^ x % N) ^ u % N) ≡ g ^ a * (g ^ x) ^ u [MOD N] :=
    (Nat.mod_modEq (g ^ a) N).mul
      ((Nat.mod_modEq ((g ^ x % N) ^ u) N).trans ((Nat.mod_modEq (g ^ x) N).pow u))
  have hright : (g ^ a % N * ((g ^ x % N) ^ u % N) % N) ^ b ≡
      (g ^ a * (g ^ x) ^ u) ^ b [MOD N] :=
    ((Nat.mod_modEq (g ^ a % N * ((g ^ x % N) ^ u % N)) N).trans hbase).pow b
  have hpow : (g ^ b) ^ (a + u * x) = (g ^ a * (g ^ x) ^ u) ^ b := by
    rw [← pow_mul, ← pow_mul, ← pow_add, ← pow_mul]
    congr 1
    ring
  exact (hleft.trans (hpow ▸ hright.symm) : _ ≡ _ [MOD N])

/-- Claim C3 — SRP agreement: if the server holds the verifier
`v = g^x mod N` with `x = H(salt ‖ password)` and produces its ephemeral
`(b_hex, B_hex)` from it, and neither side's public ephemeral is `0 mod N`,
then the client's `computeSession` over `B_hex` succeeds with some
`(K, M1, M2)`, and the server's `verifySession` over the client's `A` and
`M1` accepts the proof and returns the same session key `K` and the same
`M2`. -/
theorem srp_session_agreement (h : String → String) (salt username password : String)
    (a b v : Nat)
    (hv : v = modPow g (hexToNat (h (salt ++ password))) N)
    (hA : modPow g a N % N ≠ 0)
    (hB : hexToNat (serverGenerateEphemeral h b (natToHex v)).2 % N ≠ 0) :
    ∃ K M1 M2,
      computeSession h salt username password (natToHex a)
          (serverGenerateEphemeral h b (natToHex v)).2 = Except.ok (K, M1, M2) ∧
      verifySession h username salt (natToHex v) (natToHex (modPow g a N))
          (serverGenerateEphemeral h b (natToHex v)).1 M1 = Except.ok (K, M2) := by
  subst hv
  simp only [serverGenerateEphemeral, hexToNat_natToHex] at hB ⊢
  unfold computeSession verifySession
  simp only [hexToNat_natToHex]
  simp only [if_neg hB, if_neg hA, sharedSecret_eq]
  refine ⟨_, _, _, rfl, ?_⟩
  rw [if_neg (not_not_intro rfl)]

/-- Witness for C3 at concrete inputs: the digest function `fun _ => "0"`
(so `x = k = u = 0` and the verifier is `g^0 mod N = 1`), ephemerals
`a = b = 1`; both guards hold since `A = B = 2`. -/
theorem srp_session_agreement_witness :
    ((1 : Nat) = modPow g (hexToNat ((fun _ : String => "0")
        ("NaCl" ++ "password123"))) N ∧
      modPow g 1 N % N ≠ 0 ∧
      hexToNat (serverGenerateEphemeral (fun _ => "0") 1 (natToHex 1)).2 % N ≠ 0) ∧
    ∃ K M1 M2,
      computeSession (fun _ => "0") "NaCl" "alice" "password123" (natToHex 1)
          (serverGenerateEphemeral (fun _ => "0") 1 (natToHex 1)).2 =
        Except.ok (K, M1, M2) ∧
      verifySession (fun _ => "0") "alice" "NaCl" (natToHex 1)
          (natToHex (modPow g 1 N))
          (serverGenerateEphemeral (fun _ => "0") 1 (natToHex 1)).1 M1 =
        Except.ok (K, M2) :=
  ⟨⟨by decide, by decide, by decide⟩,
    srp_session_agreement (fun _ => "0") "NaCl" "alice" "password123" 1 1 1
      (by decide) (by decide) (by decide)⟩

end SRP

/-! ## changeMasterPassword (src/unnamed/part_012) -/

/-- The source function `Password.getAccountInfo(key)`: decrypt both envelopes (`none` models the
`throw` of a failed decryption). -/
def getAccountInfo (key : List Nat) (p : Password) : Option DecryptedEntry :=
  match decrypt key p.usernameIV p.username p.usernameTag [] with
  | none => none
  | some u =>
    match decrypt key p.passwordIV p.password p.passwordTag [] with
    | none => none
    | some pw =>
      some { id := p.passwordId, site := p.site, username := u, password := pw,
             note := p.note, category := p.category, favorite := p.isFavorite,
             createdAt := p.created, updatedAt := p.updated }

/-- One iteration of the re-encryption loop of `changeMasterPassword`
(indexed randomness for the two fresh IVs of entry `i`). -/
def reencryptOne (newKey : List Nat) (ivsP ivsU : Nat → Nat → Nat) (i : Nat)
    (dp : DecryptedEntry) : Option Password :=
  let ivPass := generateRandomIV (ivsP i)
  let ivUser := generateRandomIV (ivsU i)
  match encrypt newKey ivPass dp.password [], encrypt newKey ivUser dp.username [] with
  | some encPassword, some encUser =>
    some ⟨dp.id, encUser.ciphertext, ivUser, encUser.tag,
          encPassword.ciphertext, ivPass, encPassword.tag,
          dp.site, dp.note, dp.category, dp.favorite, dp.createdAt, dp.updatedAt⟩
  | _, _ => none

namespace Vault

/-- The source function `changeMasterPassword(currentPassword, newPassword)`: the current
password is verified only by trial-decrypting the *first* entry (skipped
entirely on an empty list); then every entry is decrypted under the current
key and re-encrypted under the key derived from a fresh salt; the salt and
derived key are replaced; the verification token is re-sealed (the source
does not await this call, so a failure inside it is an unhandled rejection
and the flow continues — hence `getD st`); a fresh SRP registration is
generated from the new password and POSTed when a token is held; finally the
vault is saved.  Returns the new state, the documents written, and the
`(salt, verifier)` pairs POSTed to `/password`. -/
def changeMasterPassword (E : Externals) (h : String → String) (st : VaultState)
    (diskSecret : Option String) (currentPassword newPassword : String)
    (newSaltStr srpSalt : String) (serverOk : Bool) (now : Nat)
    (ivsP ivsU : Nat → Nat → Nat) (ivVer ivSave : Nat → Nat) :
    Except String (VaultState × List VaultDoc × List (String × String)) :=
  match diskSecret with
  | none => Except.error "Cannot retrieve secret key"
  | some currentSecretKey =>
    let currentKey := deriveKey E st.salt currentPassword currentSecretKey
    let trialFail : Bool := match st.vaultPasswords with
      | [] => false
      | p :: _ => (getAccountInfo currentKey p).isNone
    if trialFail then Except.error "Current password is incorrect"
    else
      match st.vaultPasswords.mapM (getAccountInfo currentKey) with
      | none => Except.error "Decryption failed"
      | some decryptedPasswords =>
        let newKey := deriveKey E newSaltStr newPassword currentSecretKey
        match decryptedPasswords.enum.mapM
            (fun ip => reencryptOne newKey ivsP ivsU ip.1 ip.2) with
        | none => Except.error "Invalid key size"
        | some newPasswords =>
          let st := { st with vaultPasswords := newPasswords, salt := newSaltStr,
                              derivedKey := newKey }
          let st := (setVerificationToken st ivVer).getD st
          let reg := SRP.generateRegistration h srpSalt newPassword
          match st.token with
          | some _ =>
            if serverOk then
              match saveToFile E st now ivSave with
              | (st2, some d) => Except.ok (st2, [d], [reg])
              | (_, none) => Except.error "Invalid key size"
            else Except.error "Failed to update password on server"
          | none =>
            match saveToFile E st now ivSave with
            | (st2, some d) => Except.ok (st2, [d], [])
            | (_, none) => Except.error "Invalid key size"

end Vault

/-- Claim C10 — `changeMasterPassword` on a vault with no entries accepts
*every* value of `currentPassword`: the only verification is a trial
decryption of the first entry, skipped when the entries list is empty, so
the vault is rekeyed (new salt, new derived key; a fresh SRP registration is
generated, unposted here since no session token is held) with no check of
the current password at all. -/
theorem vault_change_master_password_empty_accepts_any (E : Externals)
    (h : String → String) (st : VaultState) (sk currentPassword newPassword : String)
    (newSaltStr srpSalt : String) (serverOk : Bool) (now : Nat)
    (ivsP ivsU : Nat → Nat → Nat) (ivVer ivSave : Nat → Nat)
    (hempty : st.vaultPasswords = [])
    (htoken : st.token = none)
    (hkey : (deriveKey E newSaltStr newPassword sk).length = 32) :
    ∃ st2 d,
      Vault.changeMasterPassword E h st (some sk) currentPassword newPassword
          newSaltStr srpSalt serverOk now ivsP ivsU ivVer ivSave =
        Except.ok (st2, [d], []) ∧
      st2.salt = newSaltStr ∧
      st2.derivedKey = deriveKey E newSaltStr newPassword sk ∧
      st2.vaultPasswords = [] := by
  obtain ⟨r1, hr1⟩ := encrypt_isSome (deriveKey E newSaltStr newPassword sk)
    (generateRandomIV ivVer) st.verificationPlaintext [] hkey
  simp only [Vault.changeMasterPassword, hempty, List.mapM_nil, List.enum_nil,
    Option.pure_def, Option.bind_eq_bind, if_neg Bool.false_ne_true,
    Vault.setVerificationToken, hr1, Option.getD_some, htoken]
  obtain ⟨r2, hr2⟩ := encrypt_isSome (deriveKey E newSaltStr newPassword sk)
    (generateRandomIV ivSave) (E.entriesDigest []) [] hkey
  simp only [Vault.saveToFile, Vault.setVerificationToken, hr2]
  exact ⟨_, _, rfl, rfl, rfl, rfl⟩

/-- Witness for C10: the empty vault `addLocal` is rekeyed under an
arbitrary current password. -/
theorem vault_change_master_password_empty_accepts_any_witness :
    (addLocal.vaultPasswords = [] ∧ addLocal.token = none ∧
      (deriveKey wExt "newSalt" "newPassword" "sk").length = 32) ∧
    ∃ st2 d,
      Vault.changeMasterPassword wExt (fun _ => "0") addLocal (some "sk")
          "whatever-wrong-guess" "newPassword" "newSalt" "srpSalt" true 7
          (fun _ _ => 0) (fun _ _ => 0) (fun _ => 0) (fun _ => 0) =
        Except.ok (st2, [d], []) ∧
      st2.salt = "newSalt" ∧
      st2.derivedKey = deriveKey wExt "newSalt" "newPassword" "sk" ∧
      st2.vaultPasswords = [] :=
  ⟨⟨by decide, by decide, by decide⟩,
    vault_change_master_password_empty_accepts_any wExt (fun _ => "0") addLocal "sk"
      "whatever-wrong-guess" "newPassword" "newSalt" "srpSalt" true 7
      (fun _ _ => 0) (fun _ _ => 0) (fun _ => 0) (fun _ => 0)
      (by decide) (by decide) (by decide)⟩

end PM
